import Mathlib

/-!
Verification of the document-expiry service (`src/app/main.py`, store schema in
`src/app/database.py`).

Shallow embedding conventions:
* Python strings are modelled as `List Char` (`Str`); a Lean string literal `"x"`
  enters the model as `"x".data`.
* Calendar dates and instants are modelled as `Nat` (day index / seconds). The
  store keeps them as ISO-8601 `TEXT` and compares them with SQLite string
  comparison, which agrees with chronological order on fixed-width ISO strings,
  so the `Nat` order is faithful.
* The two SQLite tables `documents` and `document_history` are modelled as the
  lists of a `DB` record, kept in rowid (insertion) order; `AUTOINCREMENT`
  ids are modelled by the `nextDocId` / `nextHistId` counters.
* An HTTP 4xx/5xx raised by a handler is modelled with `Except ApiError`.
* `ORDER BY ... ASC/DESC` is modelled by `List.insertionSort` with the
  corresponding total preorder (SQLite specifies no tie order; any stable sort
  is a faithful refinement).
-/

abbrev Str := List Char

/-- Error taxonomy of the service: 404, 400, 429, 500 (SMTP), 500 (store). -/
inductive ApiError where
  | notFound
  | invalidArgument
  | rateLimited
  | sinkError
  | storageError
deriving DecidableEq, Repr

/-- A row of the `documents` table. -/
structure Document where
  id : Nat
  title : Str
  doc_type : Str
  expiry_date : Nat
  status : Str
  created_at : Nat
  updated_at : Nat
deriving DecidableEq, Repr

/-- A row of the `document_history` table. -/
structure HistoryEntry where
  id : Nat
  document_id : Nat
  old_expiry_date : Nat
  new_expiry_date : Nat
  updated_at : Nat
deriving DecidableEq, Repr

/-- The persistent store: both tables in rowid order plus the AUTOINCREMENT
counters. -/
structure DB where
  documents : List Document
  history : List HistoryEntry
  nextDocId : Nat
  nextHistId : Nat
deriving DecidableEq, Repr

/-- `ORDER BY expiry_date ASC`. -/
def expiryLE (a b : Document) : Prop := a.expiry_date ≤ b.expiry_date

instance : DecidableRel expiryLE := fun a b => Nat.decLe a.expiry_date b.expiry_date

instance : IsTotal Document expiryLE := ⟨fun a b => Nat.le_total a.expiry_date b.expiry_date⟩

instance : IsTrans Document expiryLE := ⟨fun _ _ _ h1 h2 => Nat.le_trans h1 h2⟩

/-- `ORDER BY updated_at DESC` on history rows. -/
def histGE (a b : HistoryEntry) : Prop := b.updated_at ≤ a.updated_at

instance : DecidableRel histGE := fun a b => Nat.decLe b.updated_at a.updated_at

instance : IsTotal HistoryEntry histGE := ⟨fun a b => (Nat.le_total b.updated_at a.updated_at)⟩

instance : IsTrans HistoryEntry histGE := ⟨fun _ _ _ h1 h2 => Nat.le_trans h2 h1⟩

/-- `SELECT * FROM documents WHERE id = ?` followed by `fetchone()`. -/
def findDoc (db : DB) (docId : Nat) : Option Document :=
  db.documents.find? (fun d => d.id == docId)

/-- `SELECT 1 FROM documents WHERE id = ?` — does the document exist? -/
def docExists (db : DB) (docId : Nat) : Bool :=
  db.documents.any (fun d => d.id == docId)

/-- `create_document` (main.py 233-260), after the rate-limit admission:
INSERT the row with status `active`, `created_at = updated_at = now`, commit,
then re-SELECT by `lastrowid` and return it. -/
def create_document (db : DB) (title doc_type : Str) (expiry_date now : Nat) :
    Document × DB :=
  let doc : Document :=
    { id := db.nextDocId, title := title, doc_type := doc_type,
      expiry_date := expiry_date, status := "active".data,
      created_at := now, updated_at := now }
  (doc, { db with documents := db.documents ++ [doc], nextDocId := db.nextDocId + 1 })

/-- `list_expiring_documents` (main.py 273-288):
`SELECT * FROM documents WHERE expiry_date <= ? ORDER BY expiry_date ASC`
with `cutoff = date.today() + timedelta(days=days)`. -/
def list_expiring_documents (db : DB) (today days : Nat) : List Document :=
  let cutoff := today + days
  List.insertionSort expiryLE
    (db.documents.filter (fun d => d.expiry_date ≤ cutoff))

/-- The row update performed by `renew_document`'s UPDATE statement. -/
def renewRow (docId newExpiry now : Nat) (d : Document) : Document :=
  if d.id == docId then
    { d with expiry_date := newExpiry, status := "active".data, updated_at := now }
  else d

/-- `renew_document` (main.py 291-325), after the rate-limit admission:
SELECT the row (404 when absent, leaving the store untouched); otherwise
UPDATE expiry/status/updated_at, INSERT one history row carrying the old and
new expiry, commit, re-SELECT and return the updated row.  The pair's second
component is the store after the request. -/
def renew_document (db : DB) (docId : Nat) (newExpiry now : Nat) :
    (Except ApiError Document) × DB :=
  match findDoc db docId with
  | none => (.error .notFound, db)
  | some row =>
    let entry : HistoryEntry :=
      { id := db.nextHistId, document_id := docId,
        old_expiry_date := row.expiry_date, new_expiry_date := newExpiry,
        updated_at := now }
    let db' : DB :=
      { db with documents := db.documents.map (renewRow docId newExpiry now),
                history := db.history ++ [entry],
                nextHistId := db.nextHistId + 1 }
    match findDoc db' docId with
    | some updated => (.ok updated, db')
    | none => (.error .storageError, db')

/-- `delete_document` (main.py 328-342), after the rate-limit admission:
404 when the id is absent; otherwise DELETE the document's history rows, then
the document row, in one transaction. -/
def delete_document (db : DB) (docId : Nat) : Except ApiError DB :=
  if docExists db docId then
    .ok { db with
          history := db.history.filter (fun e => !(e.document_id == docId)),
          documents := db.documents.filter (fun d => !(d.id == docId)) }
  else .error .notFound

/-- `get_document_history` (main.py 367-384): 404 when the id is absent;
otherwise `SELECT * FROM document_history WHERE document_id = ?
ORDER BY updated_at DESC`. -/
def get_document_history (db : DB) (docId : Nat) : Except ApiError (List HistoryEntry) :=
  if docExists db docId then
    .ok (List.insertionSort histGE
          (db.history.filter (fun e => e.document_id == docId)))
  else .error .notFound

/-! ## Rate limiter (`_RATE_STATE`, `_rate_limit`, main.py 144-163) -/

/-- A `_RATE_STATE` key: (client ip, operation scope). -/
abbrev RateKey := Str × Str

/-- The `_RATE_STATE` mapping; a key never touched holds `[]`
(`_RATE_STATE.get(key, [])`). -/
abbrev RateState := RateKey → List Nat

/-- `_rate_limit` (main.py 152-163): keep the timestamps with
`now - stamp < window_seconds`; if at least `limit` remain, raise 429 — the
dict write-back is after the raise, so the state is returned untouched;
otherwise record `now` and admit. -/
def _rate_limit (rs : RateState) (key : RateKey) (now limit windowSeconds : Nat) :
    (Except ApiError Unit) × RateState :=
  let fresh := (rs key).filter (fun stamp => now - stamp < windowSeconds)
  if limit ≤ fresh.length then
    (.error .rateLimited, rs)
  else
    (.ok (), fun k => if k = key then fresh ++ [now] else rs k)

/-- A sequence of admission checks on one key at the given instants; collects
`true` for admitted, `false` for rejected. -/
def rateLimitCalls (rs : RateState) (key : RateKey) (limit window : Nat) :
    List Nat → RateState × List Bool
  | [] => (rs, [])
  | now :: rest =>
    match _rate_limit rs key now limit window with
    | (.error _, rs') =>
      let next := rateLimitCalls rs' key limit window rest
      (next.1, false :: next.2)
    | (.ok _, rs') =>
      let next := rateLimitCalls rs' key limit window rest
      (next.1, true :: next.2)

/-- The admission rule exactly as the claim words it (for comparison with
`_rate_limit`): "first discards recorded timestamps older than `now - W`" —
a stamp survives unless `stamp < now - W` — "rejects with RateLimited if at
least N timestamps remain". -/
def claimRateLimitRejects (rs : RateState) (key : RateKey)
    (now limit windowSeconds : Nat) : Bool :=
  limit ≤ ((rs key).filter (fun stamp => ¬ stamp < now - windowSeconds)).length

/-! ## Notification sinks and the reminder dispatcher (main.py 131-211, 387-441) -/

/-- Python truthiness for an optional string: `None` and `""` are falsy. -/
def pyStr (v : Option Str) : Str := v.getD []

/-- `str.lower()` (the service only compares ASCII mode names). -/
def lower (s : Str) : Str := s.map Char.toLower

/-- `str.strip()`. -/
def strip (s : Str) : Str :=
  ((s.dropWhile Char.isWhitespace).reverse.dropWhile Char.isWhitespace).reverse

/-- `_bool_env` (main.py 139-141). -/
def _bool_env (v : Option Str) : Bool :=
  let s := lower (strip (pyStr v))
  s == "1".data || s == "true".data || s == "yes".data || s == "on".data

/-- The environment configuration read by the reminder path.
`smtpDeliveryOk` abstracts the outcome of the `smtplib` session attempted at
main.py 189-200 when a host is configured: `false` models an
`SMTPException`. -/
structure Env where
  smtpDisabled : Option Str
  smtpHost : Option Str
  smtpDeliveryOk : Bool
  reminderTestEmail : Option Str
  reminderWebhookUrl : Option Str
deriving DecidableEq, Repr

/-- `_send_email` (main.py 166-205): with `SMTP_DISABLED` truthy or no
`SMTP_HOST` configured it appends one line to the outbox log and returns
`email:<recipient>`; otherwise it attempts SMTP delivery, mapping an
`SMTPException` to a 500, and logs on success. -/
def _send_email (env : Env) (outbox : List Str) (recipient message : Str) :
    Except ApiError (Str × List Str) :=
  if _bool_env env.smtpDisabled then
    .ok ("email:".data ++ recipient,
         outbox ++ ["[EMAIL] to=".data ++ recipient ++ " ".data ++ message])
  else if (pyStr env.smtpHost).isEmpty then
    .ok ("email:".data ++ recipient,
         outbox ++ ["[EMAIL] to=".data ++ recipient ++ " ".data ++ message])
  else if env.smtpDeliveryOk then
    .ok ("email:".data ++ recipient,
         outbox ++ ["[EMAIL:SMTP] to=".data ++ recipient ++ " ".data ++ message])
  else .error .sinkError

/-- `_send_webhook` (main.py 208-211): append to the outbox log, return
`webhook:<url>`. -/
def _send_webhook (outbox : List Str) (url message : Str) : Str × List Str :=
  ("webhook:".data ++ url,
   outbox ++ ["[WEBHOOK] url=".data ++ url ++ " ".data ++ message])

/-- The per-document reminder text (main.py 425 and 439); the date prints via
its `Nat` model. -/
def reminderMessage (row : Document) : Str :=
  "Документ ".data ++ row.title ++ " истекает ".data ++ (toString row.expiry_date).data

/-- The `ReminderResult` response model (main.py 73-78). -/
structure ReminderResult where
  sent : Nat
  mode : Str
  target : Str
  details : List Str
deriving DecidableEq, Repr

/-- The email dispatch loop (main.py 424-426): one `_send_email` per due row,
aborting the batch on the first sink error. -/
def sendEmailBatch (env : Env) (recipient : Str) :
    List Document → List Str → List Str → Except ApiError (List Str × List Str)
  | [], outbox, acc => .ok (acc, outbox)
  | row :: rest, outbox, acc =>
    match _send_email env outbox recipient (reminderMessage row) with
    | .error e => .error e
    | .ok (detail, outbox') => sendEmailBatch env recipient rest outbox' (acc ++ [detail])

/-- The fallback log path shown in the email target label (main.py 422),
modelled as the cwd-relative suffix. -/
def logPath : Str := "data/outbox.log".data

/-- `mode` resolution (main.py 398): `(mode or "email").lower()`. -/
def targetMode (mode : Option Str) : Str :=
  lower (if (pyStr mode).isEmpty then "email".data else pyStr mode)

/-- Email target validation (main.py 418): only a truthy target is checked,
and the whitespace check is the single character `' '`. -/
def emailTargetInvalid (target : Option Str) : Bool :=
  !(pyStr target).isEmpty &&
    (!((pyStr target).contains '@') || (pyStr target).contains ' ')

/-- Webhook target validation (main.py 432). -/
def webhookTargetInvalid (target : Option Str) : Bool :=
  !(pyStr target).isEmpty &&
    !("http://".data.isPrefixOf (pyStr target) ||
      "https://".data.isPrefixOf (pyStr target))

/-- Email target resolution (main.py 420): explicit truthy target, else
`REMINDER_TEST_EMAIL`, else the hardcoded fallback. -/
def resolvedEmailTarget (env : Env) (target : Option Str) : Str :=
  if (pyStr target).isEmpty then env.reminderTestEmail.getD "test@example.com".data
  else pyStr target

/-- Webhook target resolution (main.py 434-436). -/
def resolvedWebhookUrl (env : Env) (target : Option Str) : Str :=
  if (pyStr target).isEmpty then env.reminderWebhookUrl.getD "https://example.invalid/webhook".data
  else pyStr target

/-- `send_reminders` (main.py 387-441) after the rate-limit admission: mode
validation, due-document query, target validation/resolution, dispatch loop
(one sink call and one outbox line per due row, in listExpiring order).
Returns the response together with the outbox log. -/
def send_reminders_core (env : Env) (db : DB) (today days : Nat)
    (mode target : Option Str) (outbox : List Str) :
    Except ApiError (ReminderResult × List Str) :=
  if ¬ (targetMode mode = "email".data ∨ targetMode mode = "webhook".data) then
    .error .invalidArgument
  else if targetMode mode = "email".data then
    if emailTargetInvalid target then .error .invalidArgument
    else
      match sendEmailBatch env (resolvedEmailTarget env target)
          (list_expiring_documents db today days) outbox [] with
      | .error e => .error e
      | .ok (details, outbox') =>
        .ok ({ sent := (list_expiring_documents db today days).length,
               mode := "email".data,
               target :=
                 if !(pyStr env.smtpHost).isEmpty then resolvedEmailTarget env target
                 else resolvedEmailTarget env target ++ " (".data ++ logPath ++ ")".data,
               details := details }, outbox')
  else
    if webhookTargetInvalid target then .error .invalidArgument
    else
      .ok ({ sent := (list_expiring_documents db today days).length,
             mode := "webhook".data,
             target := resolvedWebhookUrl env target,
             details := (list_expiring_documents db today days).map
               (fun row => (_send_webhook [] (resolvedWebhookUrl env target)
                 (reminderMessage row)).1) },
           outbox ++ (list_expiring_documents db today days).map
             (fun row => "[WEBHOOK] url=".data ++ resolvedWebhookUrl env target ++
               " ".data ++ reminderMessage row))

/-! ## Store micro-operations of `renew_document`, for the atomicity claim -/

/-- One store micro-operation inside the renew transaction. -/
inductive TxStep where
  | updateDoc (docId newExpiry now : Nat)
  | insertHist (entry : HistoryEntry)
  | commit
deriving DecidableEq, Repr

/-- Effect of a micro-operation on a table snapshot. -/
def applyStep (db : DB) : TxStep → DB
  | .updateDoc docId newExpiry now =>
    { db with documents := db.documents.map (renewRow docId newExpiry now) }
  | .insertHist e =>
    { db with history := db.history ++ [e], nextHistId := db.nextHistId + 1 }
  | .commit => db

/-- Is the step the transaction commit? -/
def isCommit : TxStep → Bool
  | .commit => true
  | _ => false

/-- Runs steps against a working copy; the durable state advances to the
working copy only at a commit, as the store publishes the implicit
transaction (closing the connection without commit rolls it back). -/
def execSteps : DB → DB → List TxStep → DB × DB
  | pending, durable, [] => (pending, durable)
  | pending, durable, s :: rest =>
    execSteps (applyStep pending s)
      (if isCommit s then applyStep pending s else durable) rest

/-- The store micro-operations of one `renew_document` request: the 404 path
performs no write; the success path is UPDATE, INSERT, COMMIT
(main.py 307-322), with no commit between the two writes. -/
def renew_tx_steps (db : DB) (docId newExpiry now : Nat) : List TxStep :=
  match findDoc db docId with
  | none => []
  | some row =>
    [ .updateDoc docId newExpiry now,
      .insertHist { id := db.nextHistId, document_id := docId,
                    old_expiry_date := row.expiry_date,
                    new_expiry_date := newExpiry, updated_at := now },
      .commit ]

/-- Durable state when the request dies after executing only the first `k`
micro-operations. -/
def renewDurableAfter (db : DB) (docId newExpiry now k : Nat) : DB :=
  (execSteps db db ((renew_tx_steps db docId newExpiry now).take k)).2

/-! ## Helper lemmas -/

lemma renewRow_id (docId newExpiry now : Nat) (d : Document) :
    (renewRow docId newExpiry now d).id = d.id := by
  unfold renewRow; split <;> rfl

lemma findDoc_map_renew (docs : List Document) (docId newExpiry now : Nat) :
    (docs.map (renewRow docId newExpiry now)).find? (fun d => d.id == docId) =
      (docs.find? (fun d => d.id == docId)).map (renewRow docId newExpiry now) := by
  induction docs with
  | nil => rfl
  | cons d rest ih =>
    by_cases h : (d.id == docId) = true
    · rw [List.map_cons,
        List.find?_cons_of_pos _ (by simpa [renewRow_id] using h),
        List.find?_cons_of_pos (p := fun x : Document => x.id == docId) _ h]
      rfl
    · rw [List.map_cons,
        List.find?_cons_of_neg _ (by simpa [renewRow_id] using h),
        List.find?_cons_of_neg (p := fun x : Document => x.id == docId) _ h, ih]

/-! ## Claim theorems -/

/-- C6: for every valid input (non-empty title and doc_type within length
bounds, any expiry_date), `create` returns a fully materialized Document with
the store-assigned id, status `active`, `created_at = updated_at = now`, and
persists it. -/
theorem C6_create_document_correct (db : DB) (title dt : Str) (expiry now : Nat)
    (h1 : 1 ≤ title.length) (h2 : title.length ≤ 200)
    (h3 : 1 ≤ dt.length) (h4 : dt.length ≤ 100) :
    (create_document db title dt expiry now).1.id = db.nextDocId ∧
    (create_document db title dt expiry now).1.title = title ∧
    (create_document db title dt expiry now).1.doc_type = dt ∧
    (create_document db title dt expiry now).1.expiry_date = expiry ∧
    (create_document db title dt expiry now).1.status = "active".data ∧
    (create_document db title dt expiry now).1.created_at = now ∧
    (create_document db title dt expiry now).1.created_at =
      (create_document db title dt expiry now).1.updated_at ∧
    (create_document db title dt expiry now).1 ∈
      (create_document db title dt expiry now).2.documents := by
  refine ⟨rfl, rfl, rfl, rfl, rfl, rfl, rfl, ?_⟩
  simp [create_document]

/-- Witness for C6 at a concrete input. -/
theorem C6_create_document_correct_witness :
    (1 ≤ "Passport".data.length ∧ "Passport".data.length ≤ 200 ∧
     1 ≤ "visa".data.length ∧ "visa".data.length ≤ 100) ∧
    (create_document ⟨[], [], 1, 1⟩ "Passport".data "visa".data 10 5).1.status
      = "active".data :=
  ⟨⟨by decide, by decide, by decide, by decide⟩,
   ((C6_create_document_correct ⟨[], [], 1, 1⟩ "Passport".data "visa".data 10 5
      (by decide) (by decide) (by decide) (by decide)).2.2.2.2.1)⟩

lemma aux_renew_document_eq (db : DB) (docId newExpiry now : Nat) (row : Document)
    (h : findDoc db docId = some row) :
    renew_document db docId newExpiry now =
      (.ok { row with expiry_date := newExpiry, status := "active".data,
                      updated_at := now },
       { db with
         documents := db.documents.map (renewRow docId newExpiry now),
         history := db.history ++
           [{ id := db.nextHistId, document_id := docId,
              old_expiry_date := row.expiry_date,
              new_expiry_date := newExpiry, updated_at := now }],
         nextHistId := db.nextHistId + 1 }) := by
  have hid : (row.id == docId) = true :=
    List.find?_some (p := fun d : Document => d.id == docId)
      (by simpa [findDoc] using h)
  have hfind2 :
      List.find? (fun d => d.id == docId)
          (db.documents.map (renewRow docId newExpiry now)) =
        some { row with expiry_date := newExpiry, status := "active".data,
                        updated_at := now } := by
    rw [findDoc_map_renew]
    simp only [findDoc] at h
    rw [h]
    simp [renewRow, hid]
  unfold renew_document
  rw [h]
  simp only [findDoc]
  rw [hfind2]

/-- C1: for every existing document id, renew succeeds, and afterwards the
stored document's expiry_date is the new date, its status is `active`, its
updated_at is the renewal instant, and exactly one new history entry carrying
the pre-renew expiry and the new expiry is appended; for every absent id,
renew fails with NotFound and the store is unchanged. -/
theorem C1_renew_document_correct (db : DB) (docId newExpiry now : Nat) :
    (∀ row, findDoc db docId = some row →
      renew_document db docId newExpiry now =
        (.ok { row with expiry_date := newExpiry, status := "active".data,
                        updated_at := now },
         { db with
           documents := db.documents.map (renewRow docId newExpiry now),
           history := db.history ++
             [{ id := db.nextHistId, document_id := docId,
                old_expiry_date := row.expiry_date,
                new_expiry_date := newExpiry, updated_at := now }],
           nextHistId := db.nextHistId + 1 }) ∧
      findDoc (renew_document db docId newExpiry now).2 docId =
        some { row with expiry_date := newExpiry, status := "active".data,
                        updated_at := now } ∧
      (renew_document db docId newExpiry now).2.history.length =
        db.history.length + 1) ∧
    (findDoc db docId = none →
      renew_document db docId newExpiry now = (.error .notFound, db)) := by
  constructor
  · intro row h
    have hid : (row.id == docId) = true :=
      List.find?_some (p := fun d : Document => d.id == docId)
        (by simpa [findDoc] using h)
    have hfind2 :
        List.find? (fun d => d.id == docId)
            (db.documents.map (renewRow docId newExpiry now)) =
          some { row with expiry_date := newExpiry, status := "active".data,
                          updated_at := now } := by
      rw [findDoc_map_renew]
      simp only [findDoc] at h
      rw [h]
      simp [renewRow, hid]
    have hmain := aux_renew_document_eq db docId newExpiry now row h
    refine ⟨hmain, ?_, ?_⟩
    · rw [hmain]
      simpa [findDoc] using hfind2
    · rw [hmain]
      simp
  · intro h
    unfold renew_document
    rw [h]

/-- Witness for C1 at a concrete input: a one-document store. -/
theorem C1_renew_document_correct_witness :
    findDoc ⟨[⟨7, "p".data, "t".data, 10, "active".data, 1, 1⟩], [], 8, 1⟩ 7 =
      some ⟨7, "p".data, "t".data, 10, "active".data, 1, 1⟩ ∧
    renew_document ⟨[⟨7, "p".data, "t".data, 10, "active".data, 1, 1⟩], [], 8, 1⟩ 7 30 5 =
      (.ok ⟨7, "p".data, "t".data, 30, "active".data, 1, 5⟩,
       ⟨[⟨7, "p".data, "t".data, 30, "active".data, 1, 5⟩],
        [⟨1, 7, 10, 30, 5⟩], 8, 2⟩) :=
  ⟨by decide,
   ((C1_renew_document_correct
      ⟨[⟨7, "p".data, "t".data, 10, "active".data, 1, 1⟩], [], 8, 1⟩ 7 30 5).1
      ⟨7, "p".data, "t".data, 10, "active".data, 1, 1⟩ (by decide)).1⟩

/-- C8: delete fails with NotFound on an absent id; on an existing id it
removes exactly that document's history entries and the document itself, so a
second delete and a getHistory both fail with NotFound, and every other
document and history entry is untouched. -/
theorem C8_delete_document_correct (db : DB) (docId : Nat) :
    (docExists db docId = false →
      delete_document db docId = .error .notFound) ∧
    (∀ db', delete_document db docId = .ok db' →
      db'.documents = db.documents.filter (fun d => !(d.id == docId)) ∧
      db'.history = db.history.filter (fun e => !(e.document_id == docId)) ∧
      delete_document db' docId = .error .notFound ∧
      get_document_history db' docId = .error .notFound ∧
      (∀ d, d ∈ db.documents → (d.id == docId) = false → d ∈ db'.documents) ∧
      (∀ e, e ∈ db.history → (e.document_id == docId) = false → e ∈ db'.history) ∧
      (∀ d, d ∈ db'.documents → d ∈ db.documents) ∧
      (∀ e, e ∈ db'.history → e ∈ db.history)) := by
  constructor
  · intro h
    simp [delete_document, h]
  · intro db' h
    by_cases hex : docExists db docId
    · simp only [delete_document, hex, if_true, Except.ok.injEq] at h
      subst h
      have hex' : docExists { db with
          history := db.history.filter (fun e => !(e.document_id == docId)),
          documents := db.documents.filter (fun d => !(d.id == docId)) } docId
            = false := by
        simp [docExists, List.any_eq_true, List.mem_filter]
      refine ⟨rfl, rfl, ?_, ?_, ?_, ?_, ?_, ?_⟩
      · simp [delete_document, hex']
      · simp [get_document_history, hex']
      · intro d hd hne
        simp [List.mem_filter, hd, hne]
      · intro e he hne
        simp [List.mem_filter, he, hne]
      · intro d hd
        exact (List.mem_filter.mp hd).1
      · intro e he
        exact (List.mem_filter.mp he).1
    · simp [delete_document, hex] at h

/-- Witness for C8 at a concrete input: deleting the only document removes it
and its history. -/
theorem C8_delete_document_correct_witness :
    delete_document
        ⟨[⟨7, "p".data, "t".data, 10, "active".data, 1, 1⟩], [⟨1, 7, 2, 3, 4⟩], 8, 2⟩ 7 =
      .ok ⟨[], [], 8, 2⟩ ∧
    (⟨[], [], 8, 2⟩ : DB).documents =
      (⟨[⟨7, "p".data, "t".data, 10, "active".data, 1, 1⟩], [⟨1, 7, 2, 3, 4⟩], 8, 2⟩ : DB).documents.filter
        (fun d => !(d.id == 7)) :=
  ⟨rfl,
   ((C8_delete_document_correct
      ⟨[⟨7, "p".data, "t".data, 10, "active".data, 1, 1⟩], [⟨1, 7, 2, 3, 4⟩], 8, 2⟩ 7).2
      ⟨[], [], 8, 2⟩ rfl).1⟩

/-- C7: getHistory fails with NotFound exactly on ids with no document; on an
existing id it returns exactly that document's history entries, ordered by
updated_at descending. -/
theorem C7_get_document_history_correct (db : DB) (docId : Nat) :
    (docExists db docId = false →
      get_document_history db docId = .error .notFound) ∧
    (docExists db docId = true →
      ∃ l, get_document_history db docId = .ok l) ∧
    (∀ l, get_document_history db docId = .ok l →
      l.Perm (db.history.filter (fun e => e.document_id == docId)) ∧
      (∀ e, e ∈ l ↔ e ∈ db.history ∧ e.document_id = docId) ∧
      l.Sorted histGE) := by
  refine ⟨?_, ?_, ?_⟩
  · intro h
    simp [get_document_history, h]
  · intro h
    refine ⟨List.insertionSort histGE
      (db.history.filter (fun e => e.document_id == docId)), ?_⟩
    simp [get_document_history, h]
  · intro l h
    by_cases hex : docExists db docId
    · simp only [get_document_history, hex, if_true, Except.ok.injEq] at h
      subst h
      refine ⟨List.perm_insertionSort histGE _, ?_, List.sorted_insertionSort histGE _⟩
      intro e
      rw [(List.perm_insertionSort histGE _).mem_iff, List.mem_filter]
      simp
    · simp [get_document_history, hex] at h

/-- Witness for C7 at a concrete input: two renewals come back most recent
first. -/
theorem C7_get_document_history_correct_witness :
    get_document_history
        ⟨[⟨7, "p".data, "t".data, 10, "active".data, 1, 1⟩],
         [⟨1, 7, 10, 20, 2⟩, ⟨2, 7, 20, 30, 5⟩], 8, 3⟩ 7 =
      .ok [⟨2, 7, 20, 30, 5⟩, ⟨1, 7, 10, 20, 2⟩] ∧
    ([⟨2, 7, 20, 30, 5⟩, ⟨1, 7, 10, 20, 2⟩] : List HistoryEntry).Perm
      ((⟨[⟨7, "p".data, "t".data, 10, "active".data, 1, 1⟩],
         [⟨1, 7, 10, 20, 2⟩, ⟨2, 7, 20, 30, 5⟩], 8, 3⟩ : DB).history.filter
        (fun e => e.document_id == 7)) :=
  ⟨rfl,
   ((C7_get_document_history_correct
      ⟨[⟨7, "p".data, "t".data, 10, "active".data, 1, 1⟩],
       [⟨1, 7, 10, 20, 2⟩, ⟨2, 7, 20, 30, 5⟩], 8, 3⟩ 7).2.2
      [⟨2, 7, 20, 30, 5⟩, ⟨1, 7, 10, 20, 2⟩] rfl).1⟩

/-- C3: for every days in [1, 365], listExpiring returns exactly the documents
with expiry_date ≤ today + days (inclusive cutoff), ordered by expiry_date
ascending; in particular every overdue document (expiry_date < today) is
included regardless of days. -/
theorem C3_list_expiring_documents_correct (db : DB) (today days : Nat)
    (h1 : 1 ≤ days) (h2 : days ≤ 365) :
    (∀ d, d ∈ list_expiring_documents db today days ↔
      d ∈ db.documents ∧ d.expiry_date ≤ today + days) ∧
    (list_expiring_documents db today days).Perm
      (db.documents.filter (fun d => d.expiry_date ≤ today + days)) ∧
    (list_expiring_documents db today days).Sorted expiryLE ∧
    (∀ d, d ∈ db.documents → d.expiry_date < today →
      d ∈ list_expiring_documents db today days) := by
  have hmem : ∀ d, d ∈ list_expiring_documents db today days ↔
      d ∈ db.documents ∧ d.expiry_date ≤ today + days := by
    intro d
    unfold list_expiring_documents
    rw [(List.perm_insertionSort expiryLE _).mem_iff, List.mem_filter]
    simp
  refine ⟨hmem, List.perm_insertionSort expiryLE _, ?_, ?_⟩
  · exact List.sorted_insertionSort expiryLE _
  · intro d hd hlt
    exact (hmem d).mpr ⟨hd, Nat.le_trans (Nat.le_of_lt hlt) (Nat.le_add_right _ _)⟩

/-- Witness for C3 at a concrete input: an overdue document and a due one are
returned in ascending expiry order, a far-future one is not. -/
theorem C3_list_expiring_documents_correct_witness :
    (1 ≤ 30 ∧ 30 ≤ 365) ∧
    (⟨1, "a".data, "t".data, 5, "active".data, 0, 0⟩ : Document) ∈
      (⟨[⟨2, "b".data, "t".data, 500, "active".data, 0, 0⟩,
         ⟨1, "a".data, "t".data, 5, "active".data, 0, 0⟩,
         ⟨3, "c".data, "t".data, 25, "active".data, 0, 0⟩], [], 4, 1⟩ : DB).documents ∧
    (5 < 10) ∧
    (⟨1, "a".data, "t".data, 5, "active".data, 0, 0⟩ : Document) ∈
      list_expiring_documents
        ⟨[⟨2, "b".data, "t".data, 500, "active".data, 0, 0⟩,
          ⟨1, "a".data, "t".data, 5, "active".data, 0, 0⟩,
          ⟨3, "c".data, "t".data, 25, "active".data, 0, 0⟩], [], 4, 1⟩ 10 30 :=
  ⟨⟨by decide, by decide⟩, by decide, by decide,
   (C3_list_expiring_documents_correct
      ⟨[⟨2, "b".data, "t".data, 500, "active".data, 0, 0⟩,
        ⟨1, "a".data, "t".data, 5, "active".data, 0, 0⟩,
        ⟨3, "c".data, "t".data, 25, "active".data, 0, 0⟩], [], 4, 1⟩ 10 30
      (by decide) (by decide)).2.2.2
      ⟨1, "a".data, "t".data, 5, "active".data, 0, 0⟩ (by decide) (by decide)⟩

/-- C9: an admission check that rejects leaves the limiter's state unchanged —
the raise happens before the dict write-back, so neither the pruning nor a
new timestamp is recorded for the rejected request. -/
theorem C9_rate_limit_reject_preserves_state (rs : RateState) (key : RateKey)
    (now limit window : Nat) (e : ApiError)
    (h : (_rate_limit rs key now limit window).1 = .error e) :
    (_rate_limit rs key now limit window).2 = rs := by
  by_cases hc : limit ≤ ((rs key).filter (fun stamp => now - stamp < window)).length
  · simp [_rate_limit, hc]
  · simp [_rate_limit, hc] at h

/-- Witness for C9 at a concrete input. -/
theorem C9_rate_limit_reject_preserves_state_witness :
    (_rate_limit (fun _ => [5]) ("c".data, "documents".data) 10 1 60).1 =
      .error .rateLimited ∧
    (_rate_limit (fun _ => [5]) ("c".data, "documents".data) 10 1 60).2 =
      (fun _ => [5]) :=
  ⟨rfl,
   C9_rate_limit_reject_preserves_state (fun _ => [5]) ("c".data, "documents".data)
     10 1 60 .rateLimited rfl⟩

lemma aux_filter_fresh_all (l : List Nat) (now window : Nat)
    (h : ∀ s ∈ l, now - s < window) :
    l.filter (fun s => now - s < window) = l :=
  List.filter_eq_self.mpr (by intro a ha; simpa using h a ha)

lemma aux_rateLimitCalls_append (key : RateKey) (limit window : Nat)
    (ts1 ts2 : List Nat) : ∀ (rs : RateState),
    rateLimitCalls rs key limit window (ts1 ++ ts2) =
      ((rateLimitCalls ((rateLimitCalls rs key limit window ts1).1) key limit window ts2).1,
       (rateLimitCalls rs key limit window ts1).2 ++
         (rateLimitCalls ((rateLimitCalls rs key limit window ts1).1) key limit window ts2).2) := by
  induction ts1 with
  | nil => intro rs; simp [rateLimitCalls]
  | cons now rest ih =>
    intro rs
    simp only [List.cons_append, rateLimitCalls]
    rcases h : _rate_limit rs key now limit window with ⟨r, rs'⟩
    rcases r with e | u <;> simp [ih rs']

lemma aux_rateLimitCalls_all_admit (key : RateKey) (limit window : Nat)
    (ts : List Nat) : ∀ (rs : RateState) (pre : List Nat),
    rs key = pre →
    pre.length + ts.length ≤ limit →
    (∀ s ∈ pre ++ ts, ∀ t ∈ ts, t - s < window) →
    (rateLimitCalls rs key limit window ts).2 = List.replicate ts.length true ∧
    (rateLimitCalls rs key limit window ts).1 key = pre ++ ts := by
  induction ts with
  | nil =>
    intro rs pre hpre _ _
    exact ⟨rfl, by simpa [rateLimitCalls] using hpre⟩
  | cons now rest ih =>
    intro rs pre hpre hlen hwin
    have hfresh : (rs key).filter (fun s => now - s < window) = pre := by
      rw [hpre]
      exact aux_filter_fresh_all pre now window
        (fun s hs => hwin s (List.mem_append_left _ hs) now (List.mem_cons_self _ _))
    have hlen' : pre.length + rest.length + 1 ≤ limit := by
      simp only [List.length_cons] at hlen
      omega
    have hadm : _rate_limit rs key now limit window =
        (.ok (), fun k => if k = key then pre ++ [now] else rs k) := by
      unfold _rate_limit
      rw [hfresh, if_neg (by omega)]
    have hkey2 : (fun k => if k = key then pre ++ [now] else rs k) key = pre ++ [now] :=
      if_pos rfl
    have hlen2 : (pre ++ [now]).length + rest.length ≤ limit := by
      simp only [List.length_append, List.length_cons, List.length_nil]
      omega
    obtain ⟨ih2, ih1⟩ := ih (fun k => if k = key then pre ++ [now] else rs k)
      (pre ++ [now]) hkey2 hlen2
      (by
        intro s hs t ht
        apply hwin s _ t (List.mem_cons_of_mem _ ht)
        simp only [List.append_assoc, List.singleton_append] at hs
        exact hs)
    constructor
    · simp only [rateLimitCalls, hadm]
      simp [ih2, List.replicate_succ]
    · simp only [rateLimitCalls, hadm]
      simpa [List.append_assoc] using ih1

/-- C5 counterexample: with limit 1 and one recorded stamp lying exactly at
`now - window`, the claim's prune rule — "discards recorded timestamps older
than now - W" — retains the stamp and mandates rejection, but the code's
`now - stamp < window_seconds` filter discards it and the call is admitted. -/
theorem C5_counterexample :
    claimRateLimitRejects (fun _ => [0]) ("c".data, "documents".data) 60 1 60 = true ∧
    (_rate_limit (fun _ => [0]) ("c".data, "documents".data) 60 1 60).1 = .ok () :=
  ⟨by decide, rfl⟩

/-- C5 (amended): an admission check keeps exactly the recorded timestamps
with `now - stamp < window` (discarding those at or older than `now - W`),
rejects with RateLimited iff at least `limit` remain, and otherwise records
`now`; consequently limit+1 calls within one window on the same key have the
first `limit` admitted and the last rejected, and a call made once the window
has elapsed past every recorded stamp is admitted. -/
theorem C5_rate_limiter_correct (key : RateKey) (limit window : Nat) :
    (∀ rs now,
      ((_rate_limit rs key now limit window).1 = .error .rateLimited ↔
        limit ≤ ((rs key).filter (fun s => now - s < window)).length) ∧
      (¬ limit ≤ ((rs key).filter (fun s => now - s < window)).length →
        (_rate_limit rs key now limit window).2 key =
          (rs key).filter (fun s => now - s < window) ++ [now])) ∧
    (∀ (ts : List Nat) (tN : Nat) (rs : RateState),
      rs key = [] →
      ts.length = limit →
      (∀ s ∈ ts ++ [tN], ∀ t ∈ ts ++ [tN], t - s < window) →
      (rateLimitCalls rs key limit window (ts ++ [tN])).2 =
        List.replicate limit true ++ [false]) ∧
    (∀ rs now, 1 ≤ limit →
      (∀ s ∈ rs key, s + window ≤ now) →
      (_rate_limit rs key now limit window).1 = .ok ()) := by
  refine ⟨?_, ?_, ?_⟩
  · intro rs now
    by_cases hc : limit ≤ ((rs key).filter (fun s => now - s < window)).length
    · simp [_rate_limit, hc]
    · simp [_rate_limit, hc]
  · intro ts tN rs hkey hlen hwin
    obtain ⟨h2, h1⟩ := aux_rateLimitCalls_all_admit key limit window ts rs []
      (by simpa using hkey) (by simp [hlen])
      (fun s hs t ht =>
        hwin s (by simpa using Or.inl hs) t (by simpa using Or.inl ht))
    rw [aux_rateLimitCalls_append, h2, hlen]
    have hstate : (rateLimitCalls rs key limit window ts).1 key = ts := by
      simpa using h1
    have hfr : ((rateLimitCalls rs key limit window ts).1 key).filter
        (fun s => tN - s < window) = ts := by
      rw [hstate]
      exact aux_filter_fresh_all ts tN window
        (fun s hs => hwin s (List.mem_append_left _ hs) tN (by simp))
    have hc : limit ≤ (((rateLimitCalls rs key limit window ts).1 key).filter
        (fun s => tN - s < window)).length := by
      rw [hfr, hlen]
    have hrej : _rate_limit ((rateLimitCalls rs key limit window ts).1) key tN limit window =
        (.error .rateLimited, (rateLimitCalls rs key limit window ts).1) := by
      simp [_rate_limit, hc]
    simp [rateLimitCalls, hrej]
  · intro rs now hlim hold
    have hfr : (rs key).filter (fun s => now - s < window) = [] := by
      rw [List.filter_eq_nil_iff]
      intro s hs
      have hle := hold s hs
      simp only [decide_eq_true_eq]
      omega
    have hc : ¬ limit ≤ ((rs key).filter (fun s => now - s < window)).length := by
      rw [hfr]
      simp only [List.length_nil]
      omega
    simp [_rate_limit, hc]

/-- Witness for C5 at a concrete input: limit 2, window 60, calls at 0, 1, 2
(first two admitted, third rejected), then an after-window admission. -/
theorem C5_rate_limiter_correct_witness :
    ((fun _ => ([] : List Nat)) (("c".data, "documents".data) : RateKey) = [] ∧
     ([0, 1] : List Nat).length = 2 ∧
     (∀ s ∈ ([0, 1] ++ [2] : List Nat), ∀ t ∈ ([0, 1] ++ [2] : List Nat), t - s < 60)) ∧
    (rateLimitCalls (fun _ => []) ("c".data, "documents".data) 2 60 ([0, 1] ++ [2])).2 =
      List.replicate 2 true ++ [false] ∧
    (1 ≤ 2 ∧ ∀ s ∈ (fun _ => [0]) (("c".data, "documents".data) : RateKey), s + 60 ≤ 60) ∧
    (_rate_limit (fun _ => [0]) ("c".data, "documents".data) 60 2 60).1 = .ok () :=
  ⟨⟨rfl, rfl, by decide⟩,
   (C5_rate_limiter_correct ("c".data, "documents".data) 2 60).2.1 [0, 1] 2
     (fun _ => []) rfl rfl (by decide),
   ⟨by decide, by decide⟩,
   (C5_rate_limiter_correct ("c".data, "documents".data) 2 60).2.2
     (fun _ => [0]) 60 (by decide) (by decide)⟩

/-- C2: renew is atomic — for every failure point k (the request executes only
the first k store micro-operations), the durable state is either the
pre-renew store (neither write persisted) or exactly the post-renew store of
the successful request, in which both the document update and the history
insert are present; no state with one write but not the other is durable. -/
theorem C2_renew_atomic (db : DB) (docId newExpiry now k : Nat) :
    renewDurableAfter db docId newExpiry now k = db ∨
    (∃ d, renew_document db docId newExpiry now =
        (.ok d, renewDurableAfter db docId newExpiry now k) ∧
      (renewDurableAfter db docId newExpiry now k).documents =
        db.documents.map (renewRow docId newExpiry now) ∧
      (renewDurableAfter db docId newExpiry now k).history.length =
        db.history.length + 1) := by
  cases hfind : findDoc db docId with
  | none =>
    left
    unfold renewDurableAfter renew_tx_steps
    rw [hfind]
    simp [execSteps]
  | some row =>
    match k with
    | 0 =>
      left
      unfold renewDurableAfter renew_tx_steps
      rw [hfind]
      simp [execSteps]
    | 1 =>
      left
      unfold renewDurableAfter renew_tx_steps
      rw [hfind]
      simp [execSteps, isCommit]
    | 2 =>
      left
      unfold renewDurableAfter renew_tx_steps
      rw [hfind]
      simp [execSteps, isCommit]
    | (n + 3) =>
      right
      have hD : renewDurableAfter db docId newExpiry now (n + 3) =
          { db with
            documents := db.documents.map (renewRow docId newExpiry now),
            history := db.history ++
              [{ id := db.nextHistId, document_id := docId,
                 old_expiry_date := row.expiry_date,
                 new_expiry_date := newExpiry, updated_at := now }],
            nextHistId := db.nextHistId + 1 } := by
        unfold renewDurableAfter renew_tx_steps
        rw [hfind]
        rw [List.take_of_length_le (by simp)]
        simp [execSteps, applyStep, isCommit]
      refine ⟨{ row with expiry_date := newExpiry, status := "active".data, updated_at := now }, ?_, ?_, ?_⟩
      · rw [hD, aux_renew_document_eq db docId newExpiry now row hfind]
      · rw [hD]
      · rw [hD]
        simp

lemma aux_send_email_error (env : Env) (outbox : List Str) (r m : Str)
    (e : ApiError) (h : _send_email env outbox r m = .error e) : e = .sinkError := by
  unfold _send_email at h
  split at h
  · simp at h
  · split at h
    · simp at h
    · split at h
      · simp at h
      · simpa using h.symm

lemma aux_sendEmailBatch_no_invalid (env : Env) (recipient : Str)
    (rows : List Document) : ∀ (outbox acc : List Str),
    sendEmailBatch env recipient rows outbox acc ≠ .error .invalidArgument := by
  induction rows with
  | nil => intro outbox acc h; simp [sendEmailBatch] at h
  | cons row rest ih =>
    intro outbox acc h
    unfold sendEmailBatch at h
    cases hs : _send_email env outbox recipient (reminderMessage row) with
    | error e =>
      rw [hs] at h
      simp only [] at h
      have he := aux_send_email_error env outbox recipient (reminderMessage row) e hs
      subst he
      simp at h
    | ok pair =>
      obtain ⟨detail, outbox'⟩ := pair
      rw [hs] at h
      exact ih outbox' (acc ++ [detail]) h

lemma aux_send_email_unconfigured (env : Env)
    (h : _bool_env env.smtpDisabled = true ∨ env.smtpHost = none) :
    ∀ (outbox : List Str) (recipient message : Str),
    _send_email env outbox recipient message =
      .ok ("email:".data ++ recipient,
           outbox ++ ["[EMAIL] to=".data ++ recipient ++ " ".data ++ message]) := by
  intro outbox recipient message
  unfold _send_email
  rcases h with h | h
  · rw [if_pos h]
  · by_cases h1 : _bool_env env.smtpDisabled = true
    · rw [if_pos h1]
    · rw [if_neg h1, if_pos (by rw [h]; rfl)]

lemma aux_sendEmailBatch_total (env : Env)
    (henv : ∀ (outbox : List Str) (recipient message : Str),
      _send_email env outbox recipient message =
        .ok ("email:".data ++ recipient,
             outbox ++ ["[EMAIL] to=".data ++ recipient ++ " ".data ++ message]))
    (recipient : Str) (rows : List Document) : ∀ (outbox acc : List Str),
    sendEmailBatch env recipient rows outbox acc =
      .ok (acc ++ rows.map (fun _ => "email:".data ++ recipient),
           outbox ++ rows.map (fun row =>
             "[EMAIL] to=".data ++ recipient ++ " ".data ++ reminderMessage row)) := by
  induction rows with
  | nil => intro outbox acc; simp [sendEmailBatch]
  | cons row rest ih =>
    intro outbox acc
    unfold sendEmailBatch
    rw [henv]
    simp only [List.map_cons]
    rw [ih]
    simp


/-- C4 counterexample: three inputs on which the claim demands InvalidArgument
but the code succeeds — (1) an explicit email target containing a tab (the
target has `@` and contains whitespace, but the code only checks the single
space character, not "any whitespace"); (2) an explicit empty email target
(falsy in Python, so the check is skipped and the default target is used);
(3) an explicit empty mode (falsy, so it silently defaults to email instead
of being rejected as not being "email" or "webhook"). -/
theorem C4_counterexample :
    ("a@b\tc".data.contains '@' = true ∧
     "a@b\tc".data.any Char.isWhitespace = true ∧
     (∃ r, send_reminders_core ⟨none, none, true, none, none⟩ ⟨[], [], 1, 1⟩ 0 30
        (some "email".data) (some "a@b\tc".data) [] = .ok r)) ∧
    (∃ r, send_reminders_core ⟨none, none, true, none, none⟩ ⟨[], [], 1, 1⟩ 0 30
        (some "email".data) (some []) [] = .ok r) ∧
    (∃ r, send_reminders_core ⟨none, none, true, none, none⟩ ⟨[], [], 1, 1⟩ 0 30
        (some []) none [] = .ok r) :=
  ⟨⟨by decide, by decide, ⟨_, rfl⟩⟩, ⟨_, rfl⟩, ⟨_, rfl⟩⟩

/-- C4 (amended): sendReminders fails with InvalidArgument exactly when the
resolved mode (the given mode lowercased; an absent or empty mode defaults to
"email") is neither "email" nor "webhook", or the mode is email and a
non-empty target is supplied that lacks `@` or contains a space character,
or the mode is webhook and a non-empty target is supplied that starts with
neither `http://` nor `https://`. -/
theorem C4_send_reminders_validation (env : Env) (db : DB) (today days : Nat)
    (mode target : Option Str) (outbox : List Str) :
    send_reminders_core env db today days mode target outbox =
        .error .invalidArgument ↔
      (targetMode mode ≠ "email".data ∧ targetMode mode ≠ "webhook".data) ∨
      (targetMode mode = "email".data ∧ (pyStr target).isEmpty = false ∧
        ((pyStr target).contains '@' = false ∨ (pyStr target).contains ' ' = true)) ∨
      (targetMode mode = "webhook".data ∧ (pyStr target).isEmpty = false ∧
        "http://".data.isPrefixOf (pyStr target) = false ∧
        "https://".data.isPrefixOf (pyStr target) = false) := by
  unfold send_reminders_core
  by_cases hm : targetMode mode = "email".data ∨ targetMode mode = "webhook".data
  · rw [if_neg (not_not_intro hm)]
    rcases hm with hm | hm
    · rw [if_pos hm]
      have hnw : targetMode mode ≠ "webhook".data := by rw [hm]; decide
      by_cases hv : emailTargetInvalid target = true
      · rw [if_pos hv]
        simp only [emailTargetInvalid, Bool.and_eq_true, Bool.or_eq_true,
          Bool.not_eq_true'] at hv
        exact ⟨fun _ => Or.inr (Or.inl ⟨hm, hv.1, hv.2⟩), fun _ => rfl⟩
      · rw [if_neg hv]
        have hRHS : ¬ ((targetMode mode ≠ "email".data ∧
              targetMode mode ≠ "webhook".data) ∨
            (targetMode mode = "email".data ∧ (pyStr target).isEmpty = false ∧
              ((pyStr target).contains '@' = false ∨
               (pyStr target).contains ' ' = true)) ∨
            (targetMode mode = "webhook".data ∧ (pyStr target).isEmpty = false ∧
              "http://".data.isPrefixOf (pyStr target) = false ∧
              "https://".data.isPrefixOf (pyStr target) = false)) := by
          rintro (⟨h1, _⟩ | ⟨_, h2, h3⟩ | ⟨h2, _⟩)
          · exact h1 hm
          · refine hv ?_
            rcases h3 with h3 | h3
            · simp only [emailTargetInvalid, h2]
              simp
              exact Or.inl (by simpa using h3)
            · simp only [emailTargetInvalid, h2]
              simp
              exact Or.inr (by simpa using h3)
          · exact hnw h2
        refine ⟨fun h => ?_, fun h => absurd h hRHS⟩
        exfalso
        cases hb : sendEmailBatch env (resolvedEmailTarget env target)
            (list_expiring_documents db today days) outbox [] with
        | error e =>
          rw [hb] at h
          simp only [Except.error.injEq] at h
          exact aux_sendEmailBatch_no_invalid env (resolvedEmailTarget env target)
            (list_expiring_documents db today days) outbox [] (by rw [hb, h])
        | ok pair =>
          obtain ⟨d, o⟩ := pair
          rw [hb] at h
          simp at h
    · have hne : targetMode mode ≠ "email".data := by rw [hm]; decide
      rw [if_neg hne]
      by_cases hv : webhookTargetInvalid target = true
      · rw [if_pos hv]
        simp only [webhookTargetInvalid, Bool.and_eq_true, Bool.or_eq_true,
          Bool.not_eq_true', Bool.or_eq_false_iff] at hv
        exact ⟨fun _ => Or.inr (Or.inr ⟨hm, hv.1, hv.2.1, hv.2.2⟩), fun _ => rfl⟩
      · rw [if_neg hv]
        have hRHS : ¬ ((targetMode mode ≠ "email".data ∧
              targetMode mode ≠ "webhook".data) ∨
            (targetMode mode = "email".data ∧ (pyStr target).isEmpty = false ∧
              ((pyStr target).contains '@' = false ∨
               (pyStr target).contains ' ' = true)) ∨
            (targetMode mode = "webhook".data ∧ (pyStr target).isEmpty = false ∧
              "http://".data.isPrefixOf (pyStr target) = false ∧
              "https://".data.isPrefixOf (pyStr target) = false)) := by
          rintro (⟨_, h1⟩ | ⟨h2, _⟩ | ⟨_, h2, h3, h4⟩)
          · exact h1 hm
          · exact hne h2
          · exact hv (by simp [webhookTargetInvalid, h2, h3, h4])
        exact ⟨fun h => absurd h (by simp), fun h => absurd h hRHS⟩
  · rw [if_pos (by simpa using hm)]
    push_neg at hm
    exact ⟨fun _ => Or.inl ⟨hm.1, hm.2⟩, fun _ => rfl⟩

/-- C10: with the SMTP transport disabled or no SMTP host configured, the
email sink never fails — every send appends one line to the outbox log and
returns `email:<recipient>` — so the SinkError branch is unreachable, and
sendReminders in email mode (with a target passing the email check, or no
explicit target) always succeeds with one sink detail entry and one outbox
line per due document. -/
theorem C10_email_unconfigured_never_fails (env : Env)
    (henv : _bool_env env.smtpDisabled = true ∨ env.smtpHost = none) :
    (∀ (outbox : List Str) (recipient message : Str),
      _send_email env outbox recipient message =
        .ok ("email:".data ++ recipient,
             outbox ++ ["[EMAIL] to=".data ++ recipient ++ " ".data ++ message])) ∧
    (∀ (db : DB) (today days : Nat) (target : Option Str) (outbox : List Str),
      emailTargetInvalid target = false →
      send_reminders_core env db today days (some "email".data) target outbox =
        .ok ({ sent := (list_expiring_documents db today days).length,
               mode := "email".data,
               target :=
                 if !(pyStr env.smtpHost).isEmpty then resolvedEmailTarget env target
                 else resolvedEmailTarget env target ++ " (".data ++ logPath ++ ")".data,
               details := (list_expiring_documents db today days).map
                 (fun _ => "email:".data ++ resolvedEmailTarget env target) },
             outbox ++ (list_expiring_documents db today days).map
               (fun row => "[EMAIL] to=".data ++ resolvedEmailTarget env target ++
                 " ".data ++ reminderMessage row))) := by
  have hsend := aux_send_email_unconfigured env henv
  refine ⟨hsend, ?_⟩
  intro db today days target outbox hval
  have hmode : targetMode (some "email".data) = "email".data := by decide
  unfold send_reminders_core
  rw [if_neg (not_not_intro (Or.inl hmode)), if_pos hmode,
    if_neg (by simp [hval]),
    aux_sendEmailBatch_total env hsend (resolvedEmailTarget env target)
      (list_expiring_documents db today days) outbox []]
  simp

/-- Witness for C10 at a concrete input: SMTP disabled, one due document,
default target. -/
theorem C10_email_unconfigured_never_fails_witness :
    (_bool_env (some "1".data) = true ∨
      (⟨some "1".data, none, true, none, none⟩ : Env).smtpHost = none) ∧
    emailTargetInvalid none = false ∧
    send_reminders_core ⟨some "1".data, none, true, none, none⟩
        ⟨[⟨1, "Passport".data, "t".data, 12, "active".data, 0, 0⟩], [], 2, 1⟩
        10 30 (some "email".data) none [] =
      .ok ({ sent := (list_expiring_documents
               ⟨[⟨1, "Passport".data, "t".data, 12, "active".data, 0, 0⟩], [], 2, 1⟩
               10 30).length,
             mode := "email".data,
             target :=
               if !(pyStr (⟨some "1".data, none, true, none, none⟩ : Env).smtpHost).isEmpty
               then resolvedEmailTarget ⟨some "1".data, none, true, none, none⟩ none
               else resolvedEmailTarget ⟨some "1".data, none, true, none, none⟩ none ++
                 " (".data ++ logPath ++ ")".data,
             details := (list_expiring_documents
               ⟨[⟨1, "Passport".data, "t".data, 12, "active".data, 0, 0⟩], [], 2, 1⟩
               10 30).map
               (fun _ => "email:".data ++
                 resolvedEmailTarget ⟨some "1".data, none, true, none, none⟩ none) },
           [] ++ (list_expiring_documents
               ⟨[⟨1, "Passport".data, "t".data, 12, "active".data, 0, 0⟩], [], 2, 1⟩
               10 30).map
             (fun row => "[EMAIL] to=".data ++
               resolvedEmailTarget ⟨some "1".data, none, true, none, none⟩ none ++
               " ".data ++ reminderMessage row)) :=
  ⟨Or.inl rfl, rfl,
   (C10_email_unconfigured_never_fails ⟨some "1".data, none, true, none, none⟩
      (Or.inl rfl)).2
      ⟨[⟨1, "Passport".data, "t".data, 12, "active".data, 0, 0⟩], [], 2, 1⟩
      10 30 none [] rfl⟩
